import Mathlib

set_option maxHeartbeats 1000000

/-!
Shallow embedding of the youtube-companion-dashboard backend
(src/backend/server.js): the note store, the event log, and the request
handlers, translated handler by handler.

Modelling conventions:
* Mongo documents become Lean structures; ObjectIds become a `Nat`
  identity assigned from a `nextId` counter; `Date` timestamps become
  `Nat` values, with the wall-clock time of a request passed explicitly
  as an argument `t`.
* Each Express handler becomes a pure function
  `DB → Nat → Bool → args → OpOut α`: the `Bool` argument says whether
  the `EventLog.create` call inside `logEvent` succeeds (true) or throws
  (false); external HTTP (axios) results are passed as `Option` arguments
  (`none` = the upstream call threw).
* The `attempts` field of `OpOut` records the `logEvent` calls the
  handler performed, independently of whether persistence succeeded.
* MongoDB `$regex` / JavaScript `new RegExp(search, 'i')` matching is
  embedded by a regular-expression engine (Brzozowski derivatives) over
  a parsed pattern.  The parser covers literal characters, escapes,
  `.`, `*`, `+`, `?`, `|`, groups and character classes (without
  ranges); patterns outside this subset are treated as parse failures,
  which the handler surfaces as a 500 just as an invalid pattern would.
-/

/-- A persisted note document (`noteSchema`, server.js lines 20-27). -/
structure Note where
  id : Nat
  videoId : String
  title : String
  content : String
  tags : List String
  createdAt : Nat
  updatedAt : Nat
deriving Repr, DecidableEq

/-- The `details` payload attached to an event-log entry, one variant per
action of server.js (`{}`, `{noteId}`, `{search}`, `{text}`,
`{commentId}`, `{title, description}`).  `Option` fields model request
fields that may be `undefined`. -/
inductive Details where
  | empty
  | noteId (id : Nat)
  | search (term : Option String)
  | text (t : Option String)
  | commentId (c : String)
  | videoEdit (title description : Option String)
deriving Repr, DecidableEq

/-- A persisted event-log document (`eventLogSchema`, server.js lines 29-34). -/
structure LogEntry where
  action : String
  videoId : String
  details : Details
  timestamp : Nat
deriving Repr, DecidableEq

/-- The persistence state: the two Mongo collections plus the id counter. -/
structure DB where
  notes : List Note
  logs : List LogEntry
  nextId : Nat
deriving Repr, DecidableEq

/-! ### Regular expressions (the `$regex` / `new RegExp(search, 'i')` queries) -/

/-- Character classes appearing in patterns: an explicit set, or the
predefined `\d` / `\w` / `\s` sets. -/
inductive CharCls where
  | chars (cs : List Char)
  | digit
  | word
  | space
deriving Repr, DecidableEq

/-- Regular-expression syntax (the subset of ECMAScript patterns the
embedding covers). -/
inductive Re where
  | fail
  | eps
  | char (c : Char)
  | dot
  | cls (neg : Bool) (cc : CharCls)
  | seq (a b : Re)
  | alt (a b : Re)
  | star (a : Re)
deriving Repr, DecidableEq

/-- Class membership test; explicit sets compare case-insensitively, as
both regex sites in server.js use the `'i'` flag. -/
def CharCls.test : CharCls → Char → Bool
  | .chars cs, a => cs.any (fun c => c.toLower == a.toLower)
  | .digit, a => a.isDigit
  | .word, a => a.isAlpha || a.isDigit || a == '_'
  | .space, a => a == ' ' || a == '\t' || a == '\n' || a == '\r' || a == '\x0b' || a == '\x0c'

/-- ECMAScript line terminators, which `.` does not match. -/
def lineTerm (a : Char) : Bool :=
  a == '\n' || a == '\r' || a == ' ' || a == ' '

/-- Does the regex accept the empty string? -/
def Re.nullable : Re → Bool
  | .eps => true
  | .star _ => true
  | .seq a b => a.nullable && b.nullable
  | .alt a b => a.nullable || b.nullable
  | _ => false

/-- Smart sequencing (simplifies `fail` and `eps` units). -/
def mkSeq : Re → Re → Re
  | .fail, _ => .fail
  | _, .fail => .fail
  | .eps, r => r
  | r, .eps => r
  | a, b => .seq a b

/-- Smart alternation (simplifies `fail` units). -/
def mkAlt : Re → Re → Re
  | .fail, r => r
  | r, .fail => r
  | a, b => .alt a b

/-- Brzozowski derivative with respect to one character, folding case as
the `'i'` flag does. -/
def Re.deriv : Re → Char → Re
  | .fail, _ => .fail
  | .eps, _ => .fail
  | .char c, a => if c.toLower == a.toLower then .eps else .fail
  | .dot, a => if lineTerm a then .fail else .eps
  | .cls neg cc, a => if (cc.test a) != neg then .eps else .fail
  | .seq r1 r2, a =>
    if r1.nullable then mkAlt (mkSeq (r1.deriv a) r2) (r2.deriv a)
    else mkSeq (r1.deriv a) r2
  | .alt r1 r2, a => mkAlt (r1.deriv a) (r2.deriv a)
  | .star r, a => mkSeq (r.deriv a) (.star r)

/-- Does some (possibly empty) leading segment of the string match `r`? -/
def startMatch (r : Re) : List Char → Bool
  | [] => r.nullable
  | c :: rest => r.nullable || startMatch (r.deriv c) rest

/-- Unanchored search: does `r` match somewhere inside the string?  This
is what an unanchored `$regex` / `RegExp.test` does. -/
def searchIn (r : Re) : List Char → Bool
  | [] => startMatch r []
  | c :: rest => startMatch r (c :: rest) || searchIn r rest

/-! ### Pattern parsing -/

/-- ECMAScript pattern metacharacters (the embedding also treats `^`,
`$` and the brace quantifier delimiters as unsupported syntax). -/
def metaChar (c : Char) : Bool :=
  c == '.' || c == '*' || c == '+' || c == '?' || c == '|' || c == '(' || c == ')' ||
  c == '[' || c == ']' || c == '\\' || c == '^' || c == '$' || c == '\x7b' || c == '\x7d'

/-- A character that stands for itself in a pattern. -/
def isLiteralChar (c : Char) : Bool := !(metaChar c)

/-- Escape sequences in atom position. -/
def escAtom (c : Char) : Option Re :=
  if c == 'd' then some (.cls false .digit)
  else if c == 'D' then some (.cls true .digit)
  else if c == 'w' then some (.cls false .word)
  else if c == 'W' then some (.cls true .word)
  else if c == 's' then some (.cls false .space)
  else if c == 'S' then some (.cls true .space)
  else if c == 'n' then some (.char '\n')
  else if c == 't' then some (.char '\t')
  else if c == 'r' then some (.char '\r')
  else if c.isAlpha || c.isDigit then none
  else some (.char c)

/-- Escape sequences inside a character class. -/
def classEsc (c : Char) : Option Char :=
  if c == 'n' then some '\n'
  else if c == 't' then some '\t'
  else if c == 'r' then some '\r'
  else if c.isAlpha || c.isDigit then none
  else some c

/-- Scan the member characters of a class up to the closing bracket.
A `-` between two members would denote a range, which is outside the
embedded subset. -/
def classChars (acc : List Char) : List Char → Option (List Char × List Char)
  | [] => none
  | ']' :: rest => some (acc.reverse, rest)
  | '\\' :: [] => none
  | '\\' :: e :: rest =>
    match classEsc e with
    | none => none
    | some c => classChars (c :: acc) rest
  | '-' :: ']' :: rest => some (('-' :: acc).reverse, rest)
  | '-' :: rest => if acc.isEmpty then classChars ('-' :: acc) rest else none
  | c :: rest => classChars (c :: acc) rest

/-- Parse a character class after the opening bracket. -/
def parseClass : List Char → Option (Re × List Char)
  | '^' :: rest => (classChars [] rest).map (fun p => (Re.cls true (.chars p.1), p.2))
  | rest => (classChars [] rest).map (fun p => (Re.cls false (.chars p.1), p.2))

/-- Apply a postfix quantifier to the atom just parsed, if one follows. -/
def applyQuant (r : Re) (cs : List Char) : Re × List Char :=
  match cs with
  | [] => (r, [])
  | d :: rest =>
    if d == '*' then (.star r, rest)
    else if d == '+' then (.seq r (.star r), rest)
    else if d == '?' then (.alt .eps r, rest)
    else (r, d :: rest)

/-- Right-nested sequencing of a factor list. -/
def mkSeqList (rs : List Re) : Re := rs.foldr .seq .eps

mutual

/-- Parse an alternation (`a|b|...`).  The fuel argument bounds the
recursion depth; `parseRegex` supplies enough for any input. -/
def parseAlt : Nat → List Char → Option (Re × List Char)
  | 0, _ => none
  | fuel + 1, cs =>
    match parseSeq fuel cs [] with
    | none => none
    | some (r, rest) =>
      match rest with
      | '|' :: rest2 =>
        match parseAlt fuel rest2 with
        | none => none
        | some (r2, rest3) => some (.alt r r2, rest3)
      | _ => some (r, rest)

/-- Parse a sequence of quantified atoms, stopping at `)`/`|`/end. -/
def parseSeq : Nat → List Char → List Re → Option (Re × List Char)
  | 0, _, _ => none
  | _ + 1, [], acc => some (mkSeqList acc.reverse, [])
  | fuel + 1, c :: rest, acc =>
    if c == ')' || c == '|' then some (mkSeqList acc.reverse, c :: rest)
    else
      match parseAtom fuel (c :: rest) with
      | none => none
      | some (r, rest2) =>
        let q := applyQuant r rest2
        parseSeq fuel q.2 (q.1 :: acc)

/-- Parse one atom: a group, class, escape, `.` or literal character. -/
def parseAtom : Nat → List Char → Option (Re × List Char)
  | 0, _ => none
  | _ + 1, [] => none
  | fuel + 1, c :: rest =>
    if c == '(' then
      match parseAlt fuel rest with
      | some (r, rest2) =>
        match rest2 with
        | ')' :: rest3 => some (r, rest3)
        | _ => none
      | none => none
    else if c == '[' then parseClass rest
    else if c == '\\' then
      match rest with
      | [] => none
      | e :: rest2 =>
        match escAtom e with
        | none => none
        | some r => some (r, rest2)
    else if c == '.' then some (.dot, rest)
    else if metaChar c then none
    else some (.char c, rest)

end

/-- Compile a pattern string, as `new RegExp(search, 'i')` does; `none`
models the constructor throwing (or an unsupported construct). -/
def parseRegex (s : String) : Option Re :=
  match parseAlt (3 * s.toList.length + 4) s.toList with
  | some (r, []) => some r
  | _ => none

/-! ### Handlers -/

/-- `logEvent` (server.js lines 40-46): attempt one `EventLog.create`;
a persistence failure (`ok = false`) is swallowed. -/
def logEvent (ok : Bool) (e : LogEntry) (db : DB) : DB :=
  if ok then { db with logs := db.logs ++ [e] } else db

/-- Outcome of one handler: HTTP status, response body on success, the
resulting persistence state, and the `logEvent` calls attempted. -/
structure OpOut (α : Type) where
  status : Nat
  body : Option α
  db : DB
  attempts : List LogEntry
deriving Repr, DecidableEq

/-- The sort key of `Note.find(query).sort({createdAt: -1})`. -/
def byCreatedDesc (a b : Note) : Prop := b.createdAt ≤ a.createdAt

instance : DecidableRel byCreatedDesc := fun a b => Nat.decLe _ _

instance : IsTotal Note byCreatedDesc :=
  ⟨fun a b => (Nat.le_total b.createdAt a.createdAt).imp id id⟩

instance : IsTrans Note byCreatedDesc :=
  ⟨fun _ _ _ hab hbc => Nat.le_trans hbc hab⟩

/-- Descending-`createdAt` ordering of a result set. -/
def sortNotesDesc (l : List Note) : List Note := List.insertionSort byCreatedDesc l

/-- The sort key of `EventLog.find({videoId}).sort({timestamp: -1})`. -/
def byTsDesc (a b : LogEntry) : Prop := b.timestamp ≤ a.timestamp

instance : DecidableRel byTsDesc := fun a b => Nat.decLe _ _

instance : IsTotal LogEntry byTsDesc :=
  ⟨fun a b => (Nat.le_total b.timestamp a.timestamp).imp id id⟩

instance : IsTrans LogEntry byTsDesc :=
  ⟨fun _ _ _ hab hbc => Nat.le_trans hbc hab⟩

/-- Descending-`timestamp` ordering of a log query result. -/
def sortLogsDesc (l : List LogEntry) : List LogEntry := List.insertionSort byTsDesc l

/-- JavaScript truthiness of the `search` query value (`undefined` and
the empty string are falsy). -/
def truthy : Option String → Bool
  | none => false
  | some s => !(s == "")

/-- The per-note match of the Mongo query's `$or` clause: `title` or
`content` matches the regex, or some element of `tags` does. -/
def reNoteMatches (r : Re) (n : Note) : Bool :=
  searchIn r n.title.toList || searchIn r n.content.toList ||
    n.tags.any (fun tg => searchIn r tg.toList)

/-- `GET /api/notes/:videoId` (server.js lines 98-118). -/
def findNotes (db : DB) (t : Nat) (ok : Bool) (v : String) (search : Option String) :
    OpOut (List Note) :=
  if truthy search then
    match parseRegex (search.getD "") with
    | none => ⟨500, none, db, []⟩
    | some r =>
      let res := sortNotesDesc (db.notes.filter (fun n => n.videoId == v && reNoteMatches r n))
      let e : LogEntry := ⟨"notes_viewed", v, .search search, t⟩
      ⟨200, some res, logEvent ok e db, [e]⟩
  else
    let res := sortNotesDesc (db.notes.filter (fun n => n.videoId == v))
    let e : LogEntry := ⟨"notes_viewed", v, .search search, t⟩
    ⟨200, some res, logEvent ok e db, [e]⟩

/-- `POST /api/notes` (server.js lines 120-136): `tags || []` defaults a
missing tag list. -/
def createNote (db : DB) (t : Nat) (ok : Bool) (v ti co : String)
    (tg : Option (List String)) : OpOut Note :=
  let note : Note := ⟨db.nextId, v, ti, co, tg.getD [], t, t⟩
  let db1 : DB := ⟨db.notes ++ [note], db.logs, db.nextId + 1⟩
  let e : LogEntry := ⟨"note_created", v, .noteId note.id, t⟩
  ⟨200, some note, logEvent ok e db1, [e]⟩

/-- `PUT /api/notes/:id` (server.js lines 138-158): `findByIdAndUpdate`
with `{new: true}` replaces the three mutable fields and `updatedAt`. -/
def updateNote (db : DB) (t : Nat) (ok : Bool) (id : Nat) (ti co : String)
    (tg : List String) : OpOut Note :=
  match db.notes.find? (fun m => m.id == id) with
  | none => ⟨404, none, db, []⟩
  | some n0 =>
    let n1 : Note := { n0 with title := ti, content := co, tags := tg, updatedAt := t }
    let db1 : DB := ⟨db.notes.map (fun m => if m.id == id then n1 else m), db.logs, db.nextId⟩
    let e : LogEntry := ⟨"note_updated", n0.videoId, .noteId id, t⟩
    ⟨200, some n1, logEvent ok e db1, [e]⟩

/-- `DELETE /api/notes/:id` (server.js lines 160-174). -/
def deleteNote (db : DB) (t : Nat) (ok : Bool) (id : Nat) : OpOut String :=
  match db.notes.find? (fun m => m.id == id) with
  | none => ⟨404, none, db, []⟩
  | some n0 =>
    let db1 : DB := ⟨db.notes.eraseP (fun m => m.id == id), db.logs, db.nextId⟩
    let e : LogEntry := ⟨"note_deleted", n0.videoId, .noteId id, t⟩
    ⟨200, some "Note deleted successfully", logEvent ok e db1, [e]⟩

/-- `GET /api/video/:videoId` (server.js lines 49-75): `hasKey` models
whether `YOUTUBE_API_KEY` is configured, `upstream` the axios result
(`none` = the request threw, otherwise the `items` array). -/
def getVideo (db : DB) (t : Nat) (ok : Bool) (v : String) (hasKey : Bool)
    (upstream : Option (List String)) : OpOut String :=
  if !hasKey then ⟨500, none, db, []⟩
  else
    match upstream with
    | none => ⟨500, none, db, []⟩
    | some [] => ⟨404, none, db, []⟩
    | some (item :: _) =>
      let e : LogEntry := ⟨"video_viewed", v, .empty, t⟩
      ⟨200, some item, logEvent ok e db, [e]⟩

/-- `GET /api/comments/:videoId` (server.js lines 77-95). -/
def getComments (db : DB) (t : Nat) (ok : Bool) (v : String)
    (upstream : Option String) : OpOut String :=
  match upstream with
  | none => ⟨500, none, db, []⟩
  | some d =>
    let e : LogEntry := ⟨"comments_viewed", v, .empty, t⟩
    ⟨200, some d, logEvent ok e db, [e]⟩

/-- The synthesized comment of the simulated `POST /api/comments/:videoId`. -/
structure SimComment where
  id : String
  text : Option String
  author : String
  publishedAt : Nat
deriving Repr, DecidableEq

/-- `POST /api/comments/:videoId` (server.js lines 177-199): simulation,
no upstream call, no input validation. -/
def postComment (db : DB) (t : Nat) (ok : Bool) (v : String) (text : Option String) :
    OpOut SimComment :=
  let c : SimComment := ⟨"demo_" ++ toString t, text, "Demo User", t⟩
  let e : LogEntry := ⟨"comment_added", v, .text text, t⟩
  ⟨200, some c, logEvent ok e db, [e]⟩

/-- `DELETE /api/comments/:videoId/:commentId` (server.js lines 201-213). -/
def deleteComment (db : DB) (t : Nat) (ok : Bool) (v cid : String) : OpOut String :=
  let e : LogEntry := ⟨"comment_deleted", v, .commentId cid, t⟩
  ⟨200, some "Comment deleted successfully", logEvent ok e db, [e]⟩

/-- The synthesized video object of the simulated `PUT /api/video/:videoId`. -/
structure SimVideo where
  id : String
  title : Option String
  description : Option String
  updatedAt : Nat
deriving Repr, DecidableEq

/-- `PUT /api/video/:videoId` (server.js lines 216-238): simulation, no
upstream call, no input validation. -/
def updateVideo (db : DB) (t : Nat) (ok : Bool) (v : String)
    (title description : Option String) : OpOut SimVideo :=
  let sv : SimVideo := ⟨v, title, description, t⟩
  let e : LogEntry := ⟨"video_updated", v, .videoEdit title description, t⟩
  ⟨200, some sv, logEvent ok e db, [e]⟩

/-- `GET /api/logs/:videoId` (server.js lines 241-249): most recent 50
entries for the video, newest first; this route does not log. -/
def getLogs (db : DB) (v : String) : OpOut (List LogEntry) :=
  ⟨200, some ((sortLogsDesc (db.logs.filter (fun e => e.videoId == v))).take 50), db, []⟩

/-! ### Spec-side search semantics (for the refinement comparison) -/

/-- Lower-cased character list of a string. -/
def lowerStr (s : String) : List Char := s.toList.map Char.toLower

/-- Does `p` occur as a contiguous segment of the second list? -/
def subCheck (p : List Char) : List Char → Bool
  | [] => p.isPrefixOf []
  | c :: rest => p.isPrefixOf (c :: rest) || subCheck p rest

/-- Modelled from the spec's words: `needle` case-insensitively occurs
in `hay` as a literal substring. -/
def containsCI (needle hay : String) : Bool := subCheck (lowerStr needle) (lowerStr hay)

/-- Modelled from the spec's words: the search term matches the note's
title OR content OR some tag, as a case-insensitive literal substring. -/
def specNoteMatches (term : String) (n : Note) : Bool :=
  containsCI term n.title || containsCI term n.content ||
    n.tags.any (fun tg => containsCI term tg)

/-! ### Example states -/

/-- A note whose title contains no dot, used to separate regex matching
from literal-substring matching. -/
def exNote : Note := ⟨0, "v", "abc", "", [], 1, 1⟩

def exDb : DB := ⟨[exNote], [], 1⟩

/-- The spec scenario note carrying the tag `demo`. -/
def demoNote : Note := ⟨0, "abc", "T1", "hello", ["demo"], 1, 1⟩

def demoDb : DB := ⟨[demoNote], [], 1⟩

def emptyDb : DB := ⟨[], [], 0⟩

/-- A pattern consisting of the given characters as literals, as the
parser produces for metacharacter-free search strings. -/
def litRe (cs : List Char) : Re := mkSeqList (cs.map .char)

/-- The parts of a handler outcome that the triggering business
operation observes: status, body and the note store. -/
def sameResp {α : Type} (x y : OpOut α) : Prop :=
  x.status = y.status ∧ x.body = y.body ∧ x.db.notes = y.db.notes

/-! ### Helper lemmas -/

theorem logEvent_notes (ok : Bool) (e : LogEntry) (db : DB) :
    (logEvent ok e db).notes = db.notes := by
  cases ok <;> rfl

theorem litRe_nil : litRe [] = .eps := rfl

theorem litRe_cons (c : Char) (cs : List Char) :
    litRe (c :: cs) = .seq (.char c) (litRe cs) := rfl

theorem startMatch_fail : ∀ s, startMatch .fail s = false
  | [] => rfl
  | c :: rest => by
    simp [startMatch, Re.deriv, Re.nullable, startMatch_fail rest]

theorem mkSeq_eps_litRe (cs : List Char) : mkSeq .eps (litRe cs) = litRe cs := by
  cases cs <;> rfl

theorem mkSeq_fail_litRe (cs : List Char) : mkSeq .fail (litRe cs) = .fail := by
  cases cs <;> rfl

theorem litRe_nullable : ∀ cs : List Char, (litRe cs).nullable = cs.isEmpty
  | [] => rfl
  | _ :: _ => rfl

theorem startMatch_lit :
    ∀ (cs s : List Char),
      startMatch (litRe cs) s = (cs.map Char.toLower).isPrefixOf (s.map Char.toLower)
  | [], [] => rfl
  | [], _ :: _ => rfl
  | _ :: _, [] => rfl
  | c :: cs, a :: rest => by
    have hstep :
        startMatch (litRe (c :: cs)) (a :: rest) =
          startMatch (mkSeq (if c.toLower == a.toLower then .eps else .fail) (litRe cs))
            rest := rfl
    cases hb : (c.toLower == a.toLower) with
    | true =>
      rw [hstep, if_pos hb, mkSeq_eps_litRe, startMatch_lit cs rest]
      simp [List.isPrefixOf, hb]
    | false =>
      rw [hstep, if_neg (by simp [hb]), mkSeq_fail_litRe, startMatch_fail]
      simp [List.isPrefixOf, hb]

theorem searchIn_lit :
    ∀ (cs s : List Char),
      searchIn (litRe cs) s = subCheck (cs.map Char.toLower) (s.map Char.toLower)
  | cs, [] => by simp [searchIn, subCheck, startMatch_lit cs []]
  | cs, a :: rest => by
    simp [searchIn, subCheck, startMatch_lit cs (a :: rest), searchIn_lit cs rest,
      List.isPrefixOf]

theorem litChar_beq_false {c x : Char} (h : isLiteralChar c = true) (hx : metaChar x = true) :
    (c == x) = false := by
  rcases eq_or_ne c x with rfl | hne
  · simp [isLiteralChar, hx] at h
  · exact beq_eq_false_iff_ne.mpr hne

theorem parseAtom_lit (fuel : Nat) (c : Char) (rest : List Char) (h : isLiteralChar c = true) :
    parseAtom (fuel + 1) (c :: rest) = some (.char c, rest) := by
  have hm : metaChar c = false := by simpa [isLiteralChar] using h
  simp [parseAtom, hm,
    litChar_beq_false h (by decide : metaChar '(' = true),
    litChar_beq_false h (by decide : metaChar '[' = true),
    litChar_beq_false h (by decide : metaChar '\\' = true),
    litChar_beq_false h (by decide : metaChar '.' = true)]

theorem applyQuant_lit (r : Re) (cs : List Char)
    (h : ∀ c ∈ cs, isLiteralChar c = true) : applyQuant r cs = (r, cs) := by
  cases cs with
  | nil => rfl
  | cons d rest =>
    have hd := h d (by simp)
    simp [applyQuant,
      litChar_beq_false hd (by decide : metaChar '*' = true),
      litChar_beq_false hd (by decide : metaChar '+' = true),
      litChar_beq_false hd (by decide : metaChar '?' = true)]

theorem parseSeq_lit :
    ∀ (cs : List Char), (∀ c ∈ cs, isLiteralChar c = true) →
      ∀ (fuel : Nat) (acc : List Re), cs.length < fuel →
        parseSeq fuel cs acc = some (mkSeqList (acc.reverse ++ cs.map .char), [])
  | [], _, fuel, acc, hlt => by
    obtain ⟨f, rfl⟩ : ∃ f, fuel = f + 1 := ⟨fuel - 1, by omega⟩
    simp [parseSeq]
  | c :: cs, h, fuel, acc, hlt => by
    obtain ⟨f, rfl⟩ : ∃ f, fuel = f + 1 := ⟨fuel - 1, by omega⟩
    have hc := h c (by simp)
    have hcs : ∀ x ∈ cs, isLiteralChar x = true := fun x hx => h x (by simp [hx])
    have hflt : cs.length < f := by
      simp only [List.length_cons] at hlt
      omega
    obtain ⟨f2, rfl⟩ : ∃ f2, f = f2 + 1 := ⟨f - 1, by omega⟩
    have hg : ((c == ')') || (c == '|')) = false := by
      simp [litChar_beq_false hc (by decide : metaChar ')' = true),
        litChar_beq_false hc (by decide : metaChar '|' = true)]
    have hrec := parseSeq_lit cs hcs (f2 + 1) (.char c :: acc) hflt
    simp [parseSeq, hg, parseAtom_lit f2 c cs hc, applyQuant_lit _ _ hcs, hrec,
      List.append_assoc]

theorem parseAlt_lit (cs : List Char) (h : ∀ c ∈ cs, isLiteralChar c = true)
    (fuel : Nat) (hlt : cs.length + 1 < fuel) :
    parseAlt fuel cs = some (litRe cs, []) := by
  obtain ⟨f, rfl⟩ : ∃ f, fuel = f + 1 := ⟨fuel - 1, by omega⟩
  have hs := parseSeq_lit cs h f [] (by omega)
  simp [parseAlt, hs, litRe]

theorem parseRegex_lit (s : String) (h : ∀ c ∈ s.toList, isLiteralChar c = true) :
    parseRegex s = some (litRe s.toList) := by
  have ha := parseAlt_lit s.toList h (3 * s.toList.length + 4) (by omega)
  unfold parseRegex
  rw [ha]

theorem reNoteMatches_lit (term : String) (n : Note) :
    reNoteMatches (litRe term.data) n = specNoteMatches term n := by
  simp [reNoteMatches, specNoteMatches, containsCI, lowerStr, searchIn_lit]

/-! ### Claim theorems -/

/-- C1 (counterexample to the claim as stated): searching for `"."`
returns the note titled `"abc"`, although `"."` is not a case-insensitive
literal substring of its title, content or any tag — the handler applies
the search term as a regular expression, not as a literal string. -/
theorem find_notes_literal_substring_cex :
    (findNotes exDb 5 true "v" (some ".")).body = some [exNote] ∧
    specNoteMatches "." exNote = false := by
  constructor <;> rfl

/-- C1 (amended): `GET /api/notes/:videoId` with no search term returns all
notes for the video; with a search term it filters by interpreting the
term as a case-insensitive regular expression, which for terms free of
regex metacharacters coincides with returning exactly the notes whose
title OR content OR some tag case-insensitively contains the term as a
literal substring (OR across the three fields); both results are ordered
descending by `createdAt`. -/
theorem find_notes_search_semantics (db : DB) (t : Nat) (ok : Bool) (v term : String)
    (hlit : ∀ c ∈ term.toList, isLiteralChar c = true) (hne : term ≠ "") :
    (∃ res, (findNotes db t ok v none).body = some res ∧
       res.Perm (db.notes.filter (fun n => n.videoId == v)) ∧
       res.Pairwise byCreatedDesc) ∧
    (∃ res, (findNotes db t ok v (some term)).body = some res ∧
       res.Perm (db.notes.filter (fun n => n.videoId == v && specNoteMatches term n)) ∧
       res.Pairwise byCreatedDesc) := by
  constructor
  · exact ⟨sortNotesDesc (db.notes.filter (fun n => n.videoId == v)), rfl,
      List.perm_insertionSort byCreatedDesc _, List.sorted_insertionSort byCreatedDesc _⟩
  · have htr : truthy (some term) = true := by simp [truthy, hne]
    have hp : parseRegex term = some (litRe term.toList) :=
      parseRegex_lit term hlit
    refine ⟨sortNotesDesc
        (db.notes.filter (fun n => n.videoId == v && specNoteMatches term n)), ?_,
      List.perm_insertionSort byCreatedDesc _, List.sorted_insertionSort byCreatedDesc _⟩
    simp [findNotes, htr, hp, reNoteMatches_lit]

/-- C1 witness: searching `demoDb` for `"DEM"` (a metacharacter-free term,
matching the tag `demo` case-insensitively) yields the literal-substring
filter, sorted. -/
theorem find_notes_search_semantics_witness :
    ∃ res, (findNotes demoDb 5 true "abc" (some "DEM")).body = some res ∧
      res.Perm (demoDb.notes.filter
        (fun n => n.videoId == "abc" && specNoteMatches "DEM" n)) ∧
      res.Pairwise byCreatedDesc :=
  (find_notes_search_semantics demoDb 5 true "abc" "DEM" (by decide) (by decide)).2

/-- C6: deleting a note whose id resolves to nothing answers 404, leaves
the whole persistence state unchanged and attempts no log append. -/
theorem delete_note_missing (db : DB) (t : Nat) (ok : Bool) (id : Nat)
    (h : db.notes.find? (fun m => m.id == id) = none) :
    (deleteNote db t ok id).status = 404 ∧ (deleteNote db t ok id).body = none ∧
    (deleteNote db t ok id).db = db ∧ (deleteNote db t ok id).attempts = [] := by
  simp [deleteNote, h]

/-- C6 witness: deleting id 0 from the empty store. -/
theorem delete_note_missing_witness :
    (deleteNote emptyDb 3 true 0).status = 404 ∧ (deleteNote emptyDb 3 true 0).body = none ∧
    (deleteNote emptyDb 3 true 0).db = emptyDb ∧
    (deleteNote emptyDb 3 true 0).attempts = [] :=
  delete_note_missing emptyDb 3 true 0 rfl

/-- C9: creating {videoId "abc", title "T1", content "hello world",
tags ["x","y"]} in an empty store and then finding notes for "abc"
without a search term returns exactly one note carrying those field
values, with `createdAt` equal to `updatedAt`. -/
theorem create_find_scenario :
    ∃ n, (findNotes (createNote emptyDb 10 true "abc" "T1" "hello world"
        (some ["x", "y"])).db 11 true "abc" none).body = some [n] ∧
      n.videoId = "abc" ∧ n.title = "T1" ∧ n.content = "hello world" ∧
      n.tags = ["x", "y"] ∧ n.createdAt = n.updatedAt :=
  ⟨⟨0, "abc", "T1", "hello world", ["x", "y"], 10, 10⟩, rfl, rfl, rfl, rfl, rfl, rfl⟩

/-- C10: a present-but-empty search term is falsy in the handler's
`if (search)` test, so it filters nothing: status, result list and note
store agree with the search-absent call, while the single log append
records the empty term as the search used. -/
theorem empty_search_no_filter (db : DB) (t : Nat) (ok : Bool) (v : String) :
    (findNotes db t ok v (some "")).status = (findNotes db t ok v none).status ∧
    (findNotes db t ok v (some "")).body = (findNotes db t ok v none).body ∧
    (findNotes db t ok v (some "")).db.notes = (findNotes db t ok v none).db.notes ∧
    (findNotes db t ok v (some "")).attempts =
      [⟨"notes_viewed", v, .search (some ""), t⟩] := by
  refine ⟨rfl, rfl, ?_, rfl⟩
  cases ok <;> rfl

/-- C2: every successful note create, note update, note delete, note
find, video view and comment view performs exactly one `logEvent` call,
whose entry carries the operation's action tag and the videoId of the
affected resource. -/
theorem event_log_one_append (db : DB) (t : Nat) (ok : Bool) :
    (∀ v ti co tgo, (createNote db t ok v ti co tgo).attempts =
        [⟨"note_created", v, .noteId db.nextId, t⟩]) ∧
    (∀ id ti co tg n0, db.notes.find? (fun m => m.id == id) = some n0 →
        (updateNote db t ok id ti co tg).attempts =
          [⟨"note_updated", n0.videoId, .noteId id, t⟩]) ∧
    (∀ id n0, db.notes.find? (fun m => m.id == id) = some n0 →
        (deleteNote db t ok id).attempts =
          [⟨"note_deleted", n0.videoId, .noteId id, t⟩]) ∧
    (∀ v search, (findNotes db t ok v search).status = 200 →
        (findNotes db t ok v search).attempts =
          [⟨"notes_viewed", v, .search search, t⟩]) ∧
    (∀ v item items, (getVideo db t ok v true (some (item :: items))).attempts =
        [⟨"video_viewed", v, .empty, t⟩]) ∧
    (∀ v d, (getComments db t ok v (some d)).attempts =
        [⟨"comments_viewed", v, .empty, t⟩]) := by
  refine ⟨fun v ti co tgo => rfl, ?_, ?_, ?_, fun v item items => rfl, fun v d => rfl⟩
  · intro id ti co tg n0 h
    simp [updateNote, h]
  · intro id n0 h
    simp [deleteNote, h]
  · intro v search h
    by_cases htr : truthy search = true
    · cases hp : parseRegex (search.getD "") with
      | none => simp [findNotes, htr, hp] at h
      | some r => simp [findNotes, htr, hp]
    · have h2 : truthy search = false := by simpa using htr
      simp [findNotes, h2]

/-- C2 witness: the hypothesis-bearing conjuncts at concrete inputs. -/
theorem event_log_one_append_witness :
    (updateNote exDb 7 true 0 "T" "C" []).attempts =
      [⟨"note_updated", "v", .noteId 0, 7⟩] ∧
    (deleteNote exDb 7 true 0).attempts = [⟨"note_deleted", "v", .noteId 0, 7⟩] ∧
    (findNotes exDb 7 true "v" none).attempts =
      [⟨"notes_viewed", "v", .search none, 7⟩] := by
  have h := event_log_one_append exDb 7 true
  exact ⟨h.2.1 0 "T" "C" [] exNote rfl, h.2.2.1 0 exNote rfl, h.2.2.2.1 "v" none rfl⟩

/-- C3: a failed event-log append never changes the status, the body or
the note store of the triggering operation, for every handler that
logs. -/
theorem log_failure_isolated (db : DB) (t : Nat) (id : Nat) (v ti co cid : String)
    (tgo : Option (List String)) (tg : List String)
    (search text title desc : Option String)
    (hasKey : Bool) (upstream : Option (List String)) (upc : Option String) :
    sameResp (createNote db t true v ti co tgo) (createNote db t false v ti co tgo) ∧
    sameResp (updateNote db t true id ti co tg) (updateNote db t false id ti co tg) ∧
    sameResp (deleteNote db t true id) (deleteNote db t false id) ∧
    sameResp (findNotes db t true v search) (findNotes db t false v search) ∧
    sameResp (getVideo db t true v hasKey upstream) (getVideo db t false v hasKey upstream) ∧
    sameResp (getComments db t true v upc) (getComments db t false v upc) ∧
    sameResp (postComment db t true v text) (postComment db t false v text) ∧
    sameResp (deleteComment db t true v cid) (deleteComment db t false v cid) ∧
    sameResp (updateVideo db t true v title desc) (updateVideo db t false v title desc) := by
  refine ⟨⟨rfl, rfl, ?_⟩, ?_, ?_, ?_, ?_, ?_, ⟨rfl, rfl, ?_⟩, ⟨rfl, rfl, ?_⟩,
    ⟨rfl, rfl, ?_⟩⟩
  · simp [createNote, logEvent_notes]
  · unfold sameResp
    cases h : db.notes.find? (fun m => m.id == id) <;>
      simp [updateNote, h, logEvent_notes]
  · unfold sameResp
    cases h : db.notes.find? (fun m => m.id == id) <;>
      simp [deleteNote, h, logEvent_notes]
  · unfold sameResp
    by_cases htr : truthy search = true
    · cases hp : parseRegex (search.getD "") <;>
        simp [findNotes, htr, hp, logEvent_notes]
    · have h2 : truthy search = false := by simpa using htr
      simp [findNotes, h2, logEvent_notes]
  · unfold sameResp
    cases hasKey
    · simp [getVideo]
    · cases upstream with
      | none => simp [getVideo]
      | some its => cases its <;> simp [getVideo, logEvent_notes]
  · unfold sameResp
    cases upc <;> simp [getComments, logEvent_notes]
  · simp [postComment, logEvent_notes]
  · simp [deleteComment, logEvent_notes]
  · simp [updateVideo, logEvent_notes]

/-- C4: `PUT /api/notes/:id` answers 404 when the id resolves to no
note, leaving everything unchanged; otherwise it replaces title, content
and tags wholesale, refreshes `updatedAt` to the request time, stores
the rebuilt note in place and returns it. -/
theorem update_note_spec (db : DB) (t : Nat) (ok : Bool) (id : Nat) (ti co : String)
    (tg : List String) :
    (db.notes.find? (fun m => m.id == id) = none →
       (updateNote db t ok id ti co tg).status = 404 ∧
       (updateNote db t ok id ti co tg).body = none ∧
       (updateNote db t ok id ti co tg).db = db) ∧
    (∀ n0, db.notes.find? (fun m => m.id == id) = some n0 →
       (updateNote db t ok id ti co tg).status = 200 ∧
       (updateNote db t ok id ti co tg).body =
         some { n0 with title := ti, content := co, tags := tg, updatedAt := t } ∧
       (updateNote db t ok id ti co tg).db.notes =
         db.notes.map (fun m => if m.id == id then
           { n0 with title := ti, content := co, tags := tg, updatedAt := t } else m)) := by
  constructor
  · intro h
    simp [updateNote, h]
  · intro n0 h
    refine ⟨by simp [updateNote, h], by simp [updateNote, h], ?_⟩
    simp [updateNote, h, logEvent_notes]

/-- C4 witness: updating the missing id 5 gives 404; updating the
existing note 0 returns it with all three fields replaced and
`updatedAt` refreshed. -/
theorem update_note_spec_witness :
    (updateNote exDb 7 true 5 "T2" "bye" []).status = 404 ∧
    (updateNote exDb 7 true 0 "T2" "bye" []).body =
      some { exNote with title := "T2", content := "bye", tags := [], updatedAt := 7 } :=
  ⟨((update_note_spec exDb 7 true 5 "T2" "bye" []).1 rfl).1,
   ((update_note_spec exDb 7 true 0 "T2" "bye" []).2 exNote rfl).2.1⟩

/-- C5: starting from a store whose notes satisfy
createdAt ≤ updatedAt ≤ current time, every note-store operation
preserves that invariant; an update keeps `createdAt` (the returned note
is the old one with only title/content/tags/updatedAt replaced) and sets
`updatedAt` to the request time, which is ≥ the prior `updatedAt`. -/
theorem timestamps_invariant (db : DB) (t : Nat) (ok : Bool)
    (hwf : ∀ n ∈ db.notes, n.createdAt ≤ n.updatedAt ∧ n.updatedAt ≤ t) :
    (∀ v ti co tgo, ∀ n ∈ (createNote db t ok v ti co tgo).db.notes,
       n.createdAt ≤ n.updatedAt ∧ n.updatedAt ≤ t) ∧
    (∀ id ti co tg, ∀ n ∈ (updateNote db t ok id ti co tg).db.notes,
       n.createdAt ≤ n.updatedAt ∧ n.updatedAt ≤ t) ∧
    (∀ id, ∀ n ∈ (deleteNote db t ok id).db.notes,
       n.createdAt ≤ n.updatedAt ∧ n.updatedAt ≤ t) ∧
    (∀ v search, ∀ n ∈ (findNotes db t ok v search).db.notes,
       n.createdAt ≤ n.updatedAt ∧ n.updatedAt ≤ t) ∧
    (∀ id ti co tg n0, db.notes.find? (fun m => m.id == id) = some n0 →
       (updateNote db t ok id ti co tg).body =
         some { n0 with title := ti, content := co, tags := tg, updatedAt := t } ∧
       n0.updatedAt ≤ t ∧ n0.createdAt ≤ t) := by
  refine ⟨?_, ?_, ?_, ?_, ?_⟩
  · intro v ti co tgo n hn
    rw [show (createNote db t ok v ti co tgo).db.notes =
        db.notes ++ [⟨db.nextId, v, ti, co, tgo.getD [], t, t⟩]
      from by simp [createNote, logEvent_notes], List.mem_append] at hn
    rcases hn with hn | hn
    · exact hwf n hn
    · simp only [List.mem_singleton] at hn
      subst hn
      exact ⟨le_refl t, le_refl t⟩
  · intro id ti co tg n hn
    cases h : db.notes.find? (fun m => m.id == id) with
    | none =>
      rw [show (updateNote db t ok id ti co tg).db.notes = db.notes
        from by simp [updateNote, h]] at hn
      exact hwf n hn
    | some n0 =>
      have h0 := hwf n0 (List.mem_of_find?_eq_some h)
      rw [show (updateNote db t ok id ti co tg).db.notes =
          db.notes.map (fun m => if m.id == id then
            { n0 with title := ti, content := co, tags := tg, updatedAt := t } else m)
        from by simp [updateNote, h, logEvent_notes], List.mem_map] at hn
      obtain ⟨m, hm, rfl⟩ := hn
      by_cases hid : (m.id == id) = true
      · rw [if_pos hid]
        exact ⟨le_trans h0.1 h0.2, le_refl t⟩
      · rw [if_neg hid]
        exact hwf m hm
  · intro id n hn
    cases h : db.notes.find? (fun m => m.id == id) with
    | none =>
      rw [show (deleteNote db t ok id).db.notes = db.notes
        from by simp [deleteNote, h]] at hn
      exact hwf n hn
    | some n0 =>
      rw [show (deleteNote db t ok id).db.notes = db.notes.eraseP (fun m => m.id == id)
        from by simp [deleteNote, h, logEvent_notes]] at hn
      exact hwf n ((List.eraseP_sublist db.notes).subset hn)
  · intro v search n hn
    have heq : (findNotes db t ok v search).db.notes = db.notes := by
      by_cases htr : truthy search = true
      · cases hp : parseRegex (search.getD "") <;>
          simp [findNotes, htr, hp, logEvent_notes]
      · have h2 : truthy search = false := by simpa using htr
        simp [findNotes, h2, logEvent_notes]
    rw [heq] at hn
    exact hwf n hn
  · intro id ti co tg n0 h
    have h0 := hwf n0 (List.mem_of_find?_eq_some h)
    exact ⟨by simp [updateNote, h], h0.2, le_trans h0.1 h0.2⟩

/-- C5 witness: updating note 0 of the example store at time 7. -/
theorem timestamps_invariant_witness :
    (updateNote exDb 7 true 0 "T2" "bye" []).body =
      some { exNote with title := "T2", content := "bye", tags := [], updatedAt := 7 } ∧
    exNote.updatedAt ≤ 7 ∧ exNote.createdAt ≤ 7 :=
  (timestamps_invariant exDb 7 true (by decide)).2.2.2.2 0 "T2" "bye" [] exNote rfl

/-- C7: the log query answers 200 with at most 50 entries, all for the
requested videoId, ordered newest-first; they are a most-recent
selection: every returned entry is at least as recent as every matching
entry left out. -/
theorem logs_query_spec (db : DB) (v : String) :
    (getLogs db v).status = 200 ∧
    ∃ res rest, (getLogs db v).body = some res ∧
      res.length ≤ 50 ∧
      (∀ e ∈ res, e.videoId = v) ∧
      res.Pairwise byTsDesc ∧
      (res ++ rest).Perm (db.logs.filter (fun e => e.videoId == v)) ∧
      (∀ e ∈ res, ∀ e2 ∈ rest, e2.timestamp ≤ e.timestamp) := by
  refine ⟨rfl, (sortLogsDesc (db.logs.filter (fun e => e.videoId == v))).take 50,
    (sortLogsDesc (db.logs.filter (fun e => e.videoId == v))).drop 50,
    rfl, ?_, ?_, ?_, ?_, ?_⟩
  · rw [List.length_take]
    exact Nat.min_le_left _ _
  · intro e he
    have h1 := List.take_subset 50 (sortLogsDesc (db.logs.filter (fun e => e.videoId == v))) he
    have h2 := (List.perm_insertionSort byTsDesc _).subset h1
    exact eq_of_beq (List.mem_filter.mp h2).2
  · exact List.Pairwise.sublist (List.take_sublist _ _)
      (List.sorted_insertionSort byTsDesc _)
  · rw [List.take_append_drop]
    exact List.perm_insertionSort byTsDesc _
  · intro e he e2 he2
    exact (List.sorted_insertionSort byTsDesc _).rel_of_mem_take_of_mem_drop he he2

/-- C8 (counterexample to the claim as stated): the simulated endpoints
perform no input validation — `updateVideo` accepts an empty title and
`postComment` accepts an absent text, both answering 200 with a
synthesized object. -/
theorem simulated_validation_cex :
    (updateVideo emptyDb 3 true "vid" (some "") none).status = 200 ∧
    (updateVideo emptyDb 3 true "vid" (some "") none).body = some ⟨"vid", some "", none, 3⟩ ∧
    (postComment emptyDb 3 true "vid" none).status = 200 ∧
    (postComment emptyDb 3 true "vid" none).body = some ⟨"demo_3", none, "Demo User", 3⟩ :=
  ⟨rfl, rfl, rfl, rfl⟩

/-- C8 (amended): the simulated mutation endpoints accept any input
shape without validation, synthesize a plausible response object, append
exactly one event-log entry, change no note, and involve no upstream
call (their embeddings take no upstream argument at all). -/
theorem simulated_endpoints_spec (db : DB) (t : Nat) (ok : Bool) (v cid : String)
    (text title desc : Option String) :
    (postComment db t ok v text).status = 200 ∧
    (postComment db t ok v text).body = some ⟨"demo_" ++ toString t, text, "Demo User", t⟩ ∧
    (postComment db t ok v text).db.notes = db.notes ∧
    (postComment db t ok v text).attempts = [⟨"comment_added", v, .text text, t⟩] ∧
    (postComment db t true v text).db.logs =
      db.logs ++ [⟨"comment_added", v, .text text, t⟩] ∧
    (deleteComment db t ok v cid).status = 200 ∧
    (deleteComment db t ok v cid).body = some "Comment deleted successfully" ∧
    (deleteComment db t ok v cid).db.notes = db.notes ∧
    (deleteComment db t ok v cid).attempts = [⟨"comment_deleted", v, .commentId cid, t⟩] ∧
    (deleteComment db t true v cid).db.logs =
      db.logs ++ [⟨"comment_deleted", v, .commentId cid, t⟩] ∧
    (updateVideo db t ok v title desc).status = 200 ∧
    (updateVideo db t ok v title desc).body = some ⟨v, title, desc, t⟩ ∧
    (updateVideo db t ok v title desc).db.notes = db.notes ∧
    (updateVideo db t ok v title desc).attempts =
      [⟨"video_updated", v, .videoEdit title desc, t⟩] ∧
    (updateVideo db t true v title desc).db.logs =
      db.logs ++ [⟨"video_updated", v, .videoEdit title desc, t⟩] := by
  refine ⟨rfl, rfl, ?_, rfl, rfl, rfl, rfl, ?_, rfl, rfl, rfl, rfl, ?_, rfl, rfl⟩
  all_goals cases ok <;> rfl
